import Mathlib

/-!
# PSoC6 Super Smart Home: noise gauge and page controller

A shallow embedding of the firmware's main UI loop (`main_cm4.c`: `mainTFT`,
`process_touch`) and of the gauge drawing code (`noise_level.c`: `GetAngle`,
`DrawScale`).

Conventions of the embedding:

* C `int` values are `Int`; the only places where a machine width matters are
  the `uint32_t` accumulator `volume` (reduced `% 2 ^ 32` at every addition)
  and the `uint32_t` button statuses (`Nat`).
* `GetAngle` computes in floating point in the firmware; here it is evaluated
  in exact rational arithmetic, reading the literals `0.006` and `0.012` as
  the decimal fractions `6/1000` and `12/1000`.
* The display library and the page functions are external collaborators: a
  loop iteration returns the list of calls it makes to them, in program order.
* The constants of `noise_level.h` are not part of the sources at hand and are
  taken as parameters (`NoiseLevelH`).
-/

namespace SuperSmartHome

/-! ## Constants -/

/-- Super Smart Home logo page (`#define PAGE_LOGO 0`). -/
def PAGE_LOGO : Int := 0
/-- Sound noise level gauge page (`#define PAGE_NOISE 1`). -/
def PAGE_NOISE : Int := 1
/-- Environment light level page (`#define PAGE_LIGHT 2`). -/
def PAGE_LIGHT : Int := 2
/-- AWS console events log page (`#define PAGE_AWS 3`). -/
def PAGE_AWS : Int := 3
/-- Control Center events log page (`#define PAGE_CENTER 4`). -/
def PAGE_CENTER : Int := 4
/-- Total number of pages managed (`#define NUMBER_OF_PAGES 5`). -/
def NUMBER_OF_PAGES : Int := 5

/-- The compile-time constants that `main_cm4.c` and `noise_level.c` take from
`noise_level.h`. The header is not among the sources, so they are parameters. -/
structure NoiseLevelH where
  /-- Number of samples of one audio frame. -/
  FRAME_SIZE : Nat
  /-- Largest loudness value shown on the gauge. -/
  ABSOLUTE_MAX_NOISE : Int
  /-- Free bytes the display library should have before the gauge is set up. -/
  RECOMMENDED_MEMORY : Int
  /-- Degrees to radians factor. -/
  DEG2RAD : ℚ

/-! ## `noise_level.c` -/

/-- `static float GetAngle(int tDiff)` (noise_level.c, lines 19-28), in exact
arithmetic. -/
def GetAngle (tDiff : Int) : ℚ :=
  if tDiff < 15000 then
    225 - (6 / 1000 : ℚ) * tDiff
  else
    let tDiff := tDiff - 15000
    if tDiff < 7500 then
      225 - 90 + (12 / 1000 : ℚ) * tDiff
    else
      225

/-- Calls made by the main loop to the display library, to the page functions
of the firmware and to the audio capture driver. `ShowBitmap` and
`NoiseLevelInitGUI` are straight-line sequences of display primitives and are
recorded as one call each. -/
inductive Call where
  /-- `GUI_MEMDEV_DeleteAuto(&AutoDev)`. -/
  | GUI_MEMDEV_DeleteAuto
  /-- `ShowBitmap()`. -/
  | ShowBitmap
  /-- `GUI_ErrorOut("Not enough memory available.")`. -/
  | GUI_ErrorOut
  /-- `NoiseLevelInitGUI()`. -/
  | NoiseLevelInitGUI
  /-- `GUI_MEMDEV_CreateAuto(&AutoDev)`. -/
  | GUI_MEMDEV_CreateAuto
  /-- `GUI_DrawBitmap(&bmScaleR140, 60, 80)`. -/
  | GUI_DrawBitmap
  /-- `GUI_RotatePolygon(Param.aPoints, _aNeedle, countof(_aNeedle), Param.Angle)`. -/
  | GUI_RotatePolygon (Angle : ℚ)
  /-- `GUI_MEMDEV_DrawAuto(&AutoDev, &Param.AutoDevInfo, &DrawNeedle, &Param)`:
  renders the needle rotated by `Param.Angle`. -/
  | GUI_MEMDEV_DrawAuto (Angle : ℚ)
  /-- `cyhal_pdm_pcm_read_async(&pdm_pcm, audio_frame, FRAME_SIZE)`. -/
  | cyhal_pdm_pcm_read_async
  deriving DecidableEq

/-- `void DrawScale(int noise)` (noise_level.c, lines 80-94). -/
def DrawScale (h : NoiseLevelH) (noise : Int) : List Call :=
  let Angle := GetAngle noise * h.DEG2RAD
  [Call.GUI_MEMDEV_CreateAuto,
   Call.GUI_DrawBitmap,
   Call.GUI_RotatePolygon Angle,
   Call.GUI_MEMDEV_DrawAuto Angle]

/-! ## `main_cm4.c` -/

/-- `int process_touch(void)` (main_cm4.c, lines 319-363). The two `static`
variables are passed in and returned: the result is the returned value followed
by the new `button0_status_prev` and `button1_status_prev`. The arguments
`button0_status` and `button1_status` are what `Cy_CapSense_IsSensorActive`
returns for the two buttons. -/
def process_touch (button0_status_prev button1_status_prev : Nat)
    (button0_status button1_status : Nat) : Int × Nat × Nat :=
  if button0_status ≠ 0 ∧ button0_status_prev = 0 then
    (-1, button0_status, button1_status)
  else if button1_status ≠ 0 ∧ button1_status_prev = 0 then
    (1, button0_status, button1_status)
  else
    (0, button0_status, button1_status)

/-- The variables of `mainTFT` that live across loop iterations, with the
globals `volume` and `pdm_pcm_flag` and the statics of `process_touch`. -/
structure TFTState where
  /-- The screen current page number. -/
  pageNumber : Int
  /-- The screen previous page number. -/
  oldPageNumber : Int
  /-- The volume level mapped to the gauge. -/
  drawVolume : Int
  /-- Last read volume level (`uint32_t`). -/
  volume : Nat
  /-- Flag of the microphone status. -/
  pdm_pcm_flag : Bool
  /-- Static of `process_touch`. -/
  button0_status_prev : Nat
  /-- Static of `process_touch`. -/
  button1_status_prev : Nat
  deriving DecidableEq

/-- State when the main loop is entered (main_cm4.c, lines 57-59, 171-173;
statics start at zero). -/
def initialState : TFTState where
  pageNumber := 0
  oldPageNumber := 0
  drawVolume := 0
  volume := 0
  pdm_pcm_flag := true
  button0_status_prev := 0
  button1_status_prev := 0

/-- The `switch(pageNumber)` of main_cm4.c, lines 255-276: the code that sets
up the page just selected. `freeBytes` is what `GUI_ALLOC_GetNumFreeBytes()`
returns. The cases of pages 2 to 4 are commented out in the source. -/
def pageSwitch (h : NoiseLevelH) (pageNumber drawVolume freeBytes : Int) : List Call :=
  if pageNumber = PAGE_LOGO then
    [Call.ShowBitmap]
  else if pageNumber = PAGE_NOISE then
    if freeBytes < h.RECOMMENDED_MEMORY then
      [Call.GUI_ErrorOut]
    else
      Call.NoiseLevelInitGUI :: DrawScale h drawVolume
  else
    []

/-- The page handling of one touch-scan cycle (main_cm4.c, lines 220-277),
given the value `e` returned by `process_touch`. -/
def scanCycle (h : NoiseLevelH) (s : TFTState) (e freeBytes : Int) : TFTState × List Call :=
  let pageNumber := s.pageNumber + e
  let oldPageNumber := s.oldPageNumber
  let released :=
    if oldPageNumber ≠ pageNumber ∧ oldPageNumber = PAGE_NOISE then
      [Call.GUI_MEMDEV_DeleteAuto]
    else
      []
  let wrapped : Int × Int :=
    if pageNumber ≥ NUMBER_OF_PAGES then
      (0, 0)
    else if pageNumber < 0 then
      (NUMBER_OF_PAGES - 1, NUMBER_OF_PAGES - 1)
    else
      (pageNumber, oldPageNumber)
  let pageNumber := wrapped.1
  let oldPageNumber := wrapped.2
  if pageNumber ≠ oldPageNumber then
    ({ s with pageNumber := pageNumber, oldPageNumber := pageNumber },
      released ++ pageSwitch h pageNumber s.drawVolume freeBytes)
  else
    ({ s with pageNumber := pageNumber, oldPageNumber := oldPageNumber }, released)

/-- The summing loop of main_cm4.c, lines 288-296: `volume` restarts at zero
and every `volume += abs(audio_frame[index])` is a `uint32_t` addition. -/
def frameVolume (FRAME_SIZE : Nat) (audio_frame : List Int) : Nat :=
  (List.range FRAME_SIZE).foldl
    (fun volume index => (volume + (audio_frame.getD index 0).natAbs) % 2 ^ 32) 0

/-- The gauge block of the main loop (main_cm4.c, lines 280-309).
`audio_frame` is the content of the capture buffer when the block runs.
`volume` is below `2 ^ 32`, so `volume / 10` is below `2 ^ 31` and the cast
`(int)(volume / 10)` keeps its value; `ABSOLUTE_MAX_NOISE` is compared as an
`int`. -/
def gaugeBlock (h : NoiseLevelH) (s : TFTState) (audio_frame : List Int) :
    TFTState × List Call :=
  if s.pageNumber = PAGE_NOISE then
    let s1 : TFTState :=
      if s.pdm_pcm_flag then
        let volume := frameVolume h.FRAME_SIZE audio_frame
        let drawVolume : Int := ((volume / 10 : Nat) : Int)
        let drawVolume :=
          if drawVolume > h.ABSOLUTE_MAX_NOISE then h.ABSOLUTE_MAX_NOISE else drawVolume
        { s with pdm_pcm_flag := false, volume := volume, drawVolume := drawVolume }
      else
        s
    (s1, DrawScale h s1.drawVolume ++ [Call.cyhal_pdm_pcm_read_async])
  else
    (s, [])

/-- What the environment supplies to one iteration of the main loop. -/
structure LoopInput where
  /-- `Cy_CapSense_IsBusy` reports a scan still in progress. -/
  capsenseBusy : Bool
  /-- `Cy_CapSense_IsSensorActive` for button 0. -/
  button0_status : Nat
  /-- `Cy_CapSense_IsSensorActive` for button 1. -/
  button1_status : Nat
  /-- `GUI_ALLOC_GetNumFreeBytes()`. -/
  freeBytes : Int
  /-- `pdm_pcm_isr_handler` ran since the previous iteration. -/
  frameComplete : Bool
  /-- Content of the capture buffer `audio_frame`. -/
  audio_frame : List Int

/-- One iteration of `for(;;)` in `mainTFT` (main_cm4.c, lines 212-310). -/
def loopBody (h : NoiseLevelH) (s : TFTState) (i : LoopInput) : TFTState × List Call :=
  let s0 : TFTState := { s with pdm_pcm_flag := s.pdm_pcm_flag || i.frameComplete }
  let scanned : TFTState × List Call :=
    if i.capsenseBusy then
      (s0, [])
    else
      let r := process_touch s0.button0_status_prev s0.button1_status_prev
        i.button0_status i.button1_status
      scanCycle h { s0 with button0_status_prev := r.2.1, button1_status_prev := r.2.2 }
        r.1 i.freeBytes
  let gauged := gaugeBlock h scanned.1 i.audio_frame
  (gauged.1, scanned.2 ++ gauged.2)

/-- `void mainTFT(void)` (main_cm4.c, lines 169-311): the local variables at
their initial values, then the endless loop. The loop is run for as many
iterations as there are inputs; the result is the state reached and the calls
made so far. -/
def mainTFT (h : NoiseLevelH) (ins : List LoopInput) : TFTState × List Call :=
  ins.foldl (fun acc i => ((loopBody h acc.1 i).1, acc.2 ++ (loopBody h acc.1 i).2))
    (initialState, [])

/-- Number of `GUI_MEMDEV_CreateAuto` calls in a list of calls. -/
def creates (t : List Call) : Nat := t.count Call.GUI_MEMDEV_CreateAuto

/-- Number of `GUI_MEMDEV_DeleteAuto` calls in a list of calls. -/
def destroys (t : List Call) : Nat := t.count Call.GUI_MEMDEV_DeleteAuto

/-- Sum of the absolute values of the samples of a frame. -/
def sumAbs (audio_frame : List Int) : Nat := (audio_frame.map Int.natAbs).sum

/-- A frame is a sequence of `FRAME_SIZE` values of type `int16_t`. -/
def ValidFrame (FRAME_SIZE : Nat) (audio_frame : List Int) : Prop :=
  audio_frame.length = FRAME_SIZE ∧ ∀ x ∈ audio_frame, -32768 ≤ x ∧ x ≤ 32767

/-- An input for examples: the scan is complete, button 1 is newly touched, the
display library has 8192 free bytes, a frame of ten samples of 3200 is ready. -/
def enterGauge : LoopInput where
  capsenseBusy := false
  button0_status := 0
  button1_status := 1
  freeBytes := 8192
  frameComplete := true
  audio_frame := List.replicate 10 3200

/-- An input for examples: as `enterGauge`, but the display library has no free
bytes left. -/
def enterGaugeLowMemory : LoopInput where
  capsenseBusy := false
  button0_status := 0
  button1_status := 1
  freeBytes := 0
  frameComplete := true
  audio_frame := List.replicate 10 3200

/-- An input for examples: the scan is complete, button 1 is still held, button
0 is not touched. -/
def stayOnPage : LoopInput where
  capsenseBusy := false
  button0_status := 0
  button1_status := 1
  freeBytes := 0
  frameComplete := false
  audio_frame := List.replicate 10 3200

/-- An input for examples: the scan is complete, button 1 is released and
button 0 is newly touched. -/
def leaveGauge : LoopInput where
  capsenseBusy := false
  button0_status := 1
  button1_status := 0
  freeBytes := 8192
  frameComplete := false
  audio_frame := List.replicate 10 3200

/-- The value `process_touch` returns in an iteration that runs a touch scan. -/
def touchEvent (s : TFTState) (i : LoopInput) : Int :=
  (process_touch s.button0_status_prev s.button1_status_prev
    i.button0_status i.button1_status).1

/-- The state on which the page handling of a scanning iteration works: the
microphone flag and the button statuses are already updated. -/
def scanState (s : TFTState) (i : LoopInput) : TFTState :=
  { s with
    pdm_pcm_flag := s.pdm_pcm_flag || i.frameComplete,
    button0_status_prev := i.button0_status,
    button1_status_prev := i.button1_status }

/-- A header for examples: frames of ten samples, gauge ceiling 22500, five
kilobytes of recommended memory, and 355/113 for pi. -/
def exampleH : NoiseLevelH where
  FRAME_SIZE := 10
  ABSOLUTE_MAX_NOISE := 22500
  RECOMMENDED_MEMORY := 5120
  DEG2RAD := 355 / 113 / 180

/-! ## The angle mapper -/

theorem GetAngle_low (v : Int) (hv : v < 15000) : GetAngle v = 225 - (6 / 1000 : ℚ) * v := by
  simp [GetAngle, hv]

theorem GetAngle_mid (v : Int) (h1 : 15000 ≤ v) (h2 : v < 22500) :
    GetAngle v = 135 + (12 / 1000 : ℚ) * (v - 15000) := by
  have a : ¬ v < 15000 := by omega
  have b : v - 15000 < 7500 := by omega
  simp only [GetAngle, a, b, if_true, if_false]
  push_cast
  ring

theorem GetAngle_high (v : Int) (hv : 22500 ≤ v) : GetAngle v = 225 := by
  have a : ¬ v < 15000 := by omega
  have b : ¬ v - 15000 < 7500 := by omega
  simp [GetAngle, a, b]

/-- C2: in exact arithmetic `GetAngle 0 = 225`; `GetAngle 15000 = 135`, which is
also the value at 15000 of the formula `225 - 0.006 * raw` that `GetAngle` uses
below 15000; `GetAngle v = 225` for every `v ≥ 22500`; and `DrawScale v` rotates
the needle polygon by, and renders it at, the angle `GetAngle v * DEG2RAD`. -/
theorem GetAngle_boundaries (h : NoiseLevelH) :
    GetAngle 0 = 225 ∧
    GetAngle 15000 = 135 ∧
    (∀ v : Int, v < 15000 → GetAngle v = 225 - (6 / 1000 : ℚ) * v) ∧
    225 - (6 / 1000 : ℚ) * ((15000 : Int) : ℚ) = GetAngle 15000 ∧
    GetAngle 15000 = 135 + (12 / 1000 : ℚ) * ((0 : Int) : ℚ) ∧
    (∀ v : Int, 22500 ≤ v → GetAngle v = 225) ∧
    (∀ v : Int, DrawScale h v =
      [Call.GUI_MEMDEV_CreateAuto, Call.GUI_DrawBitmap,
       Call.GUI_RotatePolygon (GetAngle v * h.DEG2RAD),
       Call.GUI_MEMDEV_DrawAuto (GetAngle v * h.DEG2RAD)]) := by
  have e0 : GetAngle 0 = 225 := by norm_num [GetAngle]
  have e1 : GetAngle 15000 = 135 := by norm_num [GetAngle]
  refine ⟨e0, e1, GetAngle_low, ?_, ?_, GetAngle_high, fun v => rfl⟩
  · rw [e1]; norm_num
  · rw [e1]; norm_num

/-- Instance of `GetAngle_boundaries`: the ceiling value at 22500 and at 30000. -/
theorem GetAngle_boundaries_witness : GetAngle 22500 = 225 ∧ GetAngle 30000 = 225 :=
  ⟨(GetAngle_boundaries exampleH).2.2.2.2.2.1 22500 (by decide),
   (GetAngle_boundaries exampleH).2.2.2.2.2.1 30000 (by decide)⟩

/-- C9: in exact arithmetic `GetAngle` is strictly decreasing on `[0, 15000]`,
strictly increasing on `[15000, 22500]` and constantly 225 from 22500 on; it is
neither non-decreasing nor non-increasing over the non-negative integers;
`GetAngle 0 = GetAngle 22500 = 225`; and for every `v ≥ 0` the result lies in
`[135, 225]`, the value 135 being taken at `v = 15000` only. -/
theorem GetAngle_shape :
    (∀ a b : Int, 0 ≤ a → a < b → b ≤ 15000 → GetAngle b < GetAngle a) ∧
    (∀ a b : Int, 15000 ≤ a → a < b → b ≤ 22500 → GetAngle a < GetAngle b) ∧
    (∀ v : Int, 22500 ≤ v → GetAngle v = 225) ∧
    ¬ (∀ a b : Int, 0 ≤ a → a ≤ b → GetAngle a ≤ GetAngle b) ∧
    ¬ (∀ a b : Int, 0 ≤ a → a ≤ b → GetAngle b ≤ GetAngle a) ∧
    GetAngle 0 = 225 ∧ GetAngle 22500 = 225 ∧
    (∀ v : Int, 0 ≤ v → 135 ≤ GetAngle v ∧ GetAngle v ≤ 225) ∧
    (∀ v : Int, 0 ≤ v → (GetAngle v = 135 ↔ v = 15000)) := by
  have e0 : GetAngle 0 = 225 := by norm_num [GetAngle]
  have e1 : GetAngle 15000 = 135 := by norm_num [GetAngle]
  have e2 : GetAngle 22500 = 225 := GetAngle_high 22500 (by decide)
  refine ⟨?_, ?_, GetAngle_high, ?_, ?_, e0, e2, ?_, ?_⟩
  · intro a b _ hab hb
    have ha : GetAngle a = 225 - (6 / 1000 : ℚ) * a := GetAngle_low a (by omega)
    have hq : (a : ℚ) < b := by exact_mod_cast hab
    rcases lt_or_eq_of_le hb with hlt | heq
    · rw [ha, GetAngle_low b hlt]; linarith
    · subst heq
      rw [ha, e1]
      push_cast at hq
      linarith
  · intro a b ha hab hb
    have hA : GetAngle a = 135 + (12 / 1000 : ℚ) * (a - 15000) :=
      GetAngle_mid a ha (by omega)
    have hq : (a : ℚ) < b := by exact_mod_cast hab
    rcases lt_or_eq_of_le hb with hlt | heq
    · rw [hA, GetAngle_mid b (by omega) hlt]; linarith
    · subst heq
      rw [hA, e2]
      push_cast at hq
      linarith
  · intro hmono
    have := hmono 0 15000 (by decide) (by decide)
    rw [e0, e1] at this
    norm_num at this
  · intro hanti
    have := hanti 15000 22500 (by decide) (by decide)
    rw [e1, e2] at this
    norm_num at this
  · intro v hv
    have hq : (0 : ℚ) ≤ v := by exact_mod_cast hv
    rcases lt_or_le v 15000 with h1 | h1
    · have hq1 : (v : ℚ) < 15000 := by exact_mod_cast h1
      rw [GetAngle_low v h1]
      constructor <;> linarith
    · have hq1 : (15000 : ℚ) ≤ v := by exact_mod_cast h1
      rcases lt_or_le v 22500 with h2 | h2
      · have hq2 : (v : ℚ) < 22500 := by exact_mod_cast h2
        rw [GetAngle_mid v h1 h2]
        constructor <;> linarith
      · rw [GetAngle_high v h2]
        constructor <;> norm_num
  · intro v _
    constructor
    · intro hv135
      rcases lt_or_le v 15000 with h1 | h1
      · have hq1 : (v : ℚ) < 15000 := by exact_mod_cast h1
        rw [GetAngle_low v h1] at hv135
        linarith
      · rcases lt_or_le v 22500 with h2 | h2
        · rw [GetAngle_mid v h1 h2] at hv135
          have hq : (v : ℚ) = 15000 := by linarith
          exact_mod_cast hq
        · rw [GetAngle_high v h2] at hv135
          norm_num at hv135
    · intro hv
      rw [hv, e1]

/-- Instance of `GetAngle_shape`: the needle angle falls from 0 to 15000 and
rises again from 15000 to 20000. -/
theorem GetAngle_shape_witness :
    GetAngle 15000 < GetAngle 0 ∧ GetAngle 15000 < GetAngle 20000 :=
  ⟨GetAngle_shape.1 0 15000 (by decide) (by decide) (by decide),
   GetAngle_shape.2.1 15000 20000 (by decide) (by decide) (by decide)⟩

/-! ## The touch buttons -/

/-- C7: `process_touch` returns -1 exactly when button 0 has a rising edge, +1
exactly when button 1 has a rising edge and button 0 has none, and 0 otherwise;
when both buttons rise in the same scan the result is -1; in every case the
stored previous statuses become the current ones. -/
theorem process_touch_spec (b0_prev b1_prev b0 b1 : Nat) :
    ((process_touch b0_prev b1_prev b0 b1).1 = -1 ↔ (b0 ≠ 0 ∧ b0_prev = 0)) ∧
    ((process_touch b0_prev b1_prev b0 b1).1 = 1 ↔
      ((b1 ≠ 0 ∧ b1_prev = 0) ∧ ¬ (b0 ≠ 0 ∧ b0_prev = 0))) ∧
    ((process_touch b0_prev b1_prev b0 b1).1 = 0 ↔
      (¬ (b0 ≠ 0 ∧ b0_prev = 0) ∧ ¬ (b1 ≠ 0 ∧ b1_prev = 0))) ∧
    ((b0 ≠ 0 ∧ b0_prev = 0) ∧ (b1 ≠ 0 ∧ b1_prev = 0) →
      (process_touch b0_prev b1_prev b0 b1).1 = -1) ∧
    (process_touch b0_prev b1_prev b0 b1).2 = (b0, b1) := by
  unfold process_touch
  by_cases r0 : b0 ≠ 0 ∧ b0_prev = 0
  · rw [if_pos r0]
    exact ⟨⟨fun _ => r0, fun _ => rfl⟩, ⟨fun hc => by simp at hc, fun hc => absurd r0 hc.2⟩,
      ⟨fun hc => by simp at hc, fun hc => absurd r0 hc.1⟩, fun _ => rfl, rfl⟩
  · rw [if_neg r0]
    by_cases r1 : b1 ≠ 0 ∧ b1_prev = 0
    · rw [if_pos r1]
      exact ⟨⟨fun hc => by simp at hc, fun hc => absurd hc r0⟩, ⟨fun _ => ⟨r1, r0⟩, fun _ => rfl⟩,
        ⟨fun hc => by simp at hc, fun hc => absurd r1 hc.2⟩, fun hc => absurd hc.1 r0, rfl⟩
    · rw [if_neg r1]
      exact ⟨⟨fun hc => by simp at hc, fun hc => absurd hc r0⟩,
        ⟨fun hc => by simp at hc, fun hc => absurd hc.1 r1⟩,
        ⟨fun _ => ⟨r0, r1⟩, fun _ => rfl⟩, fun hc => absurd hc.1 r0, rfl⟩

/-- Instance of `process_touch_spec`: both buttons newly touched in one scan. -/
theorem process_touch_spec_witness : (process_touch 0 0 1 1).1 = -1 :=
  (process_touch_spec 0 0 1 1).2.2.2.1 ⟨⟨by decide, rfl⟩, ⟨by decide, rfl⟩⟩

theorem process_touch_snd (b0_prev b1_prev b0 b1 : Nat) :
    (process_touch b0_prev b1_prev b0 b1).2 = (b0, b1) := by
  unfold process_touch
  split_ifs <;> rfl

theorem process_touch_range (b0_prev b1_prev b0 b1 : Nat) :
    (process_touch b0_prev b1_prev b0 b1).1 = -1 ∨
    (process_touch b0_prev b1_prev b0 b1).1 = 0 ∨
    (process_touch b0_prev b1_prev b0 b1).1 = 1 := by
  unfold process_touch
  split_ifs <;> simp

/-! ## The page controller -/

theorem scanCycle_pageNumber_eq (h : NoiseLevelH) (s : TFTState) (e freeBytes : Int) :
    (scanCycle h s e freeBytes).1.pageNumber =
      if s.pageNumber + e ≥ NUMBER_OF_PAGES then 0
      else if s.pageNumber + e < 0 then NUMBER_OF_PAGES - 1
      else s.pageNumber + e := by
  unfold scanCycle
  by_cases c1 : s.pageNumber + e ≥ NUMBER_OF_PAGES
  · simp [c1]
  · by_cases c2 : s.pageNumber + e < 0
    · simp [c1, c2]
    · simp only [c1, c2, if_false]
      split_ifs <;> simp_all

theorem scanCycle_oldPageNumber_eq (h : NoiseLevelH) (s : TFTState) (e freeBytes : Int) :
    (scanCycle h s e freeBytes).1.oldPageNumber = (scanCycle h s e freeBytes).1.pageNumber := by
  unfold scanCycle
  by_cases c1 : s.pageNumber + e ≥ NUMBER_OF_PAGES
  · simp [c1]
  · by_cases c2 : s.pageNumber + e < 0
    · simp [c1, c2]
    · simp only [c1, c2, if_false]
      split_ifs <;> simp_all

theorem scanCycle_calls_eq (h : NoiseLevelH) (s : TFTState) (e freeBytes : Int)
    (hold : s.oldPageNumber = s.pageNumber) :
    (scanCycle h s e freeBytes).2 =
      if e ≠ 0 ∧ 0 ≤ s.pageNumber + e ∧ s.pageNumber + e < NUMBER_OF_PAGES then
        (if s.pageNumber = PAGE_NOISE then [Call.GUI_MEMDEV_DeleteAuto] else []) ++
          pageSwitch h (s.pageNumber + e) s.drawVolume freeBytes
      else if e ≠ 0 ∧ s.pageNumber = PAGE_NOISE then [Call.GUI_MEMDEV_DeleteAuto]
      else [] := by
  unfold scanCycle
  rw [hold]
  by_cases c0 : e = 0
  · subst c0
    simp only [add_zero]
    by_cases c1 : s.pageNumber ≥ NUMBER_OF_PAGES
    · simp [c1]
    · by_cases c2 : s.pageNumber < 0
      · simp [c1, c2]
      · simp [c1, c2]
  · by_cases c1 : s.pageNumber + e ≥ NUMBER_OF_PAGES
    · have n1 : ¬ s.pageNumber + e < NUMBER_OF_PAGES := by omega
      simp [c1, c0, n1]
    · by_cases c2 : s.pageNumber + e < 0
      · have n2 : ¬ 0 ≤ s.pageNumber + e := by omega
        simp [c1, c2, c0, n2]
      · have p1 : s.pageNumber + e < NUMBER_OF_PAGES := by omega
        have p2 : 0 ≤ s.pageNumber + e := by omega
        simp [c1, c2, c0, p1, p2]

theorem gaugeBlock_pageNumber (h : NoiseLevelH) (s : TFTState) (frame : List Int) :
    (gaugeBlock h s frame).1.pageNumber = s.pageNumber := by
  unfold gaugeBlock
  split_ifs <;> rfl

theorem gaugeBlock_oldPageNumber (h : NoiseLevelH) (s : TFTState) (frame : List Int) :
    (gaugeBlock h s frame).1.oldPageNumber = s.oldPageNumber := by
  unfold gaugeBlock
  split_ifs <;> rfl

theorem gaugeBlock_calls (h : NoiseLevelH) (s : TFTState) (frame : List Int) :
    (gaugeBlock h s frame).2 =
      if s.pageNumber = PAGE_NOISE then
        DrawScale h (gaugeBlock h s frame).1.drawVolume ++ [Call.cyhal_pdm_pcm_read_async]
      else [] := by
  unfold gaugeBlock
  split_ifs <;> rfl

theorem loopBody_busy (h : NoiseLevelH) (s : TFTState) (i : LoopInput)
    (hb : i.capsenseBusy = true) :
    loopBody h s i =
      ((gaugeBlock h { s with pdm_pcm_flag := s.pdm_pcm_flag || i.frameComplete }
          i.audio_frame).1,
        (gaugeBlock h { s with pdm_pcm_flag := s.pdm_pcm_flag || i.frameComplete }
          i.audio_frame).2) := by
  simp [loopBody, hb]

theorem loopBody_scan (h : NoiseLevelH) (s : TFTState) (i : LoopInput)
    (hb : i.capsenseBusy = false) :
    loopBody h s i =
      ((gaugeBlock h (scanCycle h (scanState s i) (touchEvent s i) i.freeBytes).1
          i.audio_frame).1,
        (scanCycle h (scanState s i) (touchEvent s i) i.freeBytes).2 ++
        (gaugeBlock h (scanCycle h (scanState s i) (touchEvent s i) i.freeBytes).1
          i.audio_frame).2) := by
  have e2 := process_touch_snd s.button0_status_prev s.button1_status_prev
    i.button0_status i.button1_status
  have e21 : (process_touch s.button0_status_prev s.button1_status_prev
    i.button0_status i.button1_status).2.1 = i.button0_status := by rw [e2]
  have e22 : (process_touch s.button0_status_prev s.button1_status_prev
    i.button0_status i.button1_status).2.2 = i.button1_status := by rw [e2]
  simp only [loopBody, hb, scanState, touchEvent, e21, e22]
  rfl

theorem touchEvent_range (s : TFTState) (i : LoopInput) :
    touchEvent s i = -1 ∨ touchEvent s i = 0 ∨ touchEvent s i = 1 :=
  process_touch_range _ _ _ _

theorem scanState_pageNumber (s : TFTState) (i : LoopInput) :
    (scanState s i).pageNumber = s.pageNumber := rfl

theorem scanState_oldPageNumber (s : TFTState) (i : LoopInput) :
    (scanState s i).oldPageNumber = s.oldPageNumber := rfl

theorem scanState_drawVolume (s : TFTState) (i : LoopInput) :
    (scanState s i).drawVolume = s.drawVolume := rfl

theorem scanCycle_mod (h : NoiseLevelH) (s : TFTState) (e freeBytes : Int)
    (h0 : 0 ≤ s.pageNumber) (h1 : s.pageNumber < NUMBER_OF_PAGES)
    (he : e = -1 ∨ e = 0 ∨ e = 1) :
    (scanCycle h s e freeBytes).1.pageNumber = (s.pageNumber + e) % NUMBER_OF_PAGES := by
  rw [scanCycle_pageNumber_eq]
  unfold NUMBER_OF_PAGES at *
  split_ifs <;> omega

theorem loopBody_pageNumber (h : NoiseLevelH) (s : TFTState) (i : LoopInput) :
    (loopBody h s i).1.pageNumber =
      if i.capsenseBusy = true then s.pageNumber
      else (scanCycle h (scanState s i) (touchEvent s i) i.freeBytes).1.pageNumber := by
  by_cases hb : i.capsenseBusy = true
  · rw [loopBody_busy h s i hb, if_pos hb, gaugeBlock_pageNumber]
  · rw [loopBody_scan h s i (by simpa using hb), if_neg hb, gaugeBlock_pageNumber]

theorem loopBody_oldPageNumber (h : NoiseLevelH) (s : TFTState) (i : LoopInput)
    (hold : s.oldPageNumber = s.pageNumber) :
    (loopBody h s i).1.oldPageNumber = (loopBody h s i).1.pageNumber := by
  by_cases hb : i.capsenseBusy = true
  · rw [loopBody_busy h s i hb, gaugeBlock_pageNumber, gaugeBlock_oldPageNumber]
    exact hold
  · rw [loopBody_scan h s i (by simpa using hb), gaugeBlock_pageNumber,
      gaugeBlock_oldPageNumber, scanCycle_oldPageNumber_eq]

theorem mainTFT_nil (h : NoiseLevelH) : mainTFT h [] = (initialState, []) := rfl

theorem mainTFT_snoc (h : NoiseLevelH) (ins : List LoopInput) (i : LoopInput) :
    mainTFT h (ins ++ [i]) =
      ((loopBody h (mainTFT h ins).1 i).1,
        (mainTFT h ins).2 ++ (loopBody h (mainTFT h ins).1 i).2) := by
  simp [mainTFT, List.foldl_append]

theorem mainTFT_invariant (h : NoiseLevelH) (ins : List LoopInput) :
    (mainTFT h ins).1.oldPageNumber = (mainTFT h ins).1.pageNumber ∧
    0 ≤ (mainTFT h ins).1.pageNumber ∧
    (mainTFT h ins).1.pageNumber < NUMBER_OF_PAGES := by
  induction ins using List.reverseRecOn with
  | nil =>
    rw [mainTFT_nil]
    exact ⟨rfl, by decide, by decide⟩
  | append_singleton ins i ih =>
    rw [mainTFT_snoc]
    obtain ⟨ih1, ih2, ih3⟩ := ih
    refine ⟨loopBody_oldPageNumber h _ i ih1, ?_, ?_⟩
    · show 0 ≤ (loopBody h (mainTFT h ins).1 i).1.pageNumber
      rw [loopBody_pageNumber]
      split_ifs
      · exact ih2
      · rw [scanCycle_mod h (scanState (mainTFT h ins).1 i) _ _ ih2 ih3 (touchEvent_range _ i)]
        exact Int.emod_nonneg _ (by decide)
    · show (loopBody h (mainTFT h ins).1 i).1.pageNumber < NUMBER_OF_PAGES
      rw [loopBody_pageNumber]
      split_ifs
      · exact ih3
      · rw [scanCycle_mod h (scanState (mainTFT h ins).1 i) _ _ ih2 ih3 (touchEvent_range _ i)]
        exact Int.emod_lt_of_pos _ (by decide)

/-- C3: from a page index `p` in `[0, NUMBER_OF_PAGES)` and for every value `e`
in `{-1, 0, 1}` returned by `process_touch`, the page index at the end of a
touch-scan cycle is `(p + e) mod NUMBER_OF_PAGES`: `e = 1` from page 0 gives
page 1, `e = -1` from page 0 gives the last page, `e = 1` from the last page
gives page 0, and `e = 0` leaves the index unchanged. This is also the page
index at the end of a loop iteration that runs a touch scan, with `e` the value
`process_touch` returns in it. -/
theorem scanCycle_page_index (h : NoiseLevelH) (s : TFTState) (e freeBytes : Int)
    (h0 : 0 ≤ s.pageNumber) (h1 : s.pageNumber < NUMBER_OF_PAGES)
    (he : e = -1 ∨ e = 0 ∨ e = 1) :
    (scanCycle h s e freeBytes).1.pageNumber = (s.pageNumber + e) % NUMBER_OF_PAGES ∧
    (s.pageNumber = 0 → e = 1 → (scanCycle h s e freeBytes).1.pageNumber = 1) ∧
    (s.pageNumber = 0 → e = -1 →
      (scanCycle h s e freeBytes).1.pageNumber = NUMBER_OF_PAGES - 1) ∧
    (s.pageNumber = NUMBER_OF_PAGES - 1 → e = 1 →
      (scanCycle h s e freeBytes).1.pageNumber = 0) ∧
    (e = 0 → (scanCycle h s e freeBytes).1.pageNumber = s.pageNumber) ∧
    (∀ i : LoopInput, i.capsenseBusy = false →
      (loopBody h s i).1.pageNumber = (s.pageNumber + touchEvent s i) % NUMBER_OF_PAGES) := by
  have key := scanCycle_mod h s e freeBytes h0 h1 he
  refine ⟨key, ?_, ?_, ?_, ?_, ?_⟩
  · intro hp he1
    rw [key, hp, he1]; decide
  · intro hp he1
    rw [key, hp, he1]; decide
  · intro hp he1
    rw [key, hp, he1]; decide
  · intro he0
    rw [key, he0, add_zero]
    exact Int.emod_eq_of_lt h0 h1
  · intro i hb
    rw [loopBody_pageNumber, if_neg (by simp [hb])]
    exact scanCycle_mod h (scanState s i) _ _ h0 h1 (touchEvent_range s i)

/-- Instance of `scanCycle_page_index`: button 0 on the logo page selects the
last page. -/
theorem scanCycle_page_index_witness :
    (scanCycle exampleH initialState (-1) 0).1.pageNumber = NUMBER_OF_PAGES - 1 :=
  (scanCycle_page_index exampleH initialState (-1) 0 (by decide) (by decide)
    (Or.inl rfl)).2.2.1 rfl rfl

/-- C6: from the initial state and for every sequence of loop inputs, the page
index after every loop iteration lies in `[0, NUMBER_OF_PAGES)`; the gauge block
does not change it, so this is also the index at the `pageNumber == PAGE_NOISE`
test. -/
theorem pageNumber_in_range (h : NoiseLevelH) (ins : List LoopInput) :
    (0 ≤ (mainTFT h ins).1.pageNumber ∧ (mainTFT h ins).1.pageNumber < NUMBER_OF_PAGES) ∧
    (∀ i : LoopInput, i.capsenseBusy = false →
      0 ≤ (scanCycle h (scanState (mainTFT h ins).1 i)
            (touchEvent (mainTFT h ins).1 i) i.freeBytes).1.pageNumber ∧
      (scanCycle h (scanState (mainTFT h ins).1 i)
            (touchEvent (mainTFT h ins).1 i) i.freeBytes).1.pageNumber < NUMBER_OF_PAGES) ∧
    (∀ (s : TFTState) (frame : List Int), (gaugeBlock h s frame).1.pageNumber = s.pageNumber) := by
  obtain ⟨_, i2, i3⟩ := mainTFT_invariant h ins
  refine ⟨⟨i2, i3⟩, ?_, gaugeBlock_pageNumber h⟩
  intro i _
  rw [scanCycle_mod h (scanState (mainTFT h ins).1 i) _ _ i2 i3 (touchEvent_range _ i)]
  exact ⟨Int.emod_nonneg _ (by decide), Int.emod_lt_of_pos _ (by decide)⟩

theorem destroys_append (a b : List Call) : destroys (a ++ b) = destroys a + destroys b := by
  simp [destroys]

theorem creates_append (a b : List Call) : creates (a ++ b) = creates a + creates b := by
  simp [creates]

theorem destroys_DrawScale (h : NoiseLevelH) (v : Int) : destroys (DrawScale h v) = 0 := by
  simp [destroys, DrawScale]

theorem creates_DrawScale (h : NoiseLevelH) (v : Int) : creates (DrawScale h v) = 1 := by
  simp [creates, DrawScale]

theorem destroys_pageSwitch (h : NoiseLevelH) (p v fb : Int) :
    destroys (pageSwitch h p v fb) = 0 := by
  unfold pageSwitch
  split_ifs <;> simp [destroys, DrawScale]

theorem creates_pageSwitch (h : NoiseLevelH) (p v fb : Int) :
    creates (pageSwitch h p v fb) =
      if p = PAGE_NOISE ∧ h.RECOMMENDED_MEMORY ≤ fb then 1 else 0 := by
  unfold pageSwitch
  by_cases c0 : p = PAGE_LOGO
  · have c1 : ¬ p = PAGE_NOISE := by rw [c0]; decide
    rw [if_pos c0, if_neg (fun hc => c1 hc.1)]
    rfl
  · rw [if_neg c0]
    by_cases c1 : p = PAGE_NOISE
    · rw [if_pos c1]
      by_cases c2 : fb < h.RECOMMENDED_MEMORY
      · rw [if_pos c2, if_neg (fun hc => absurd hc.2 (by omega))]
        rfl
      · rw [if_neg c2, if_pos ⟨c1, by omega⟩]
        simp [creates, DrawScale]
    · rw [if_neg c1, if_neg (fun hc => c1 hc.1)]
      rfl

theorem destroys_gaugeBlock (h : NoiseLevelH) (s : TFTState) (frame : List Int) :
    destroys (gaugeBlock h s frame).2 = 0 := by
  rw [gaugeBlock_calls]
  split_ifs
  · rw [destroys_append, destroys_DrawScale]; rfl
  · rfl

theorem creates_gaugeBlock (h : NoiseLevelH) (s : TFTState) (frame : List Int) :
    creates (gaugeBlock h s frame).2 = if s.pageNumber = PAGE_NOISE then 1 else 0 := by
  rw [gaugeBlock_calls]
  split_ifs
  · rw [creates_append, creates_DrawScale]; rfl
  · rfl

theorem destroys_scanCycle (h : NoiseLevelH) (s : TFTState) (e fb : Int)
    (hold : s.oldPageNumber = s.pageNumber) :
    destroys (scanCycle h s e fb).2 = if e ≠ 0 ∧ s.pageNumber = PAGE_NOISE then 1 else 0 := by
  rw [scanCycle_calls_eq h s e fb hold]
  by_cases c : e ≠ 0 ∧ 0 ≤ s.pageNumber + e ∧ s.pageNumber + e < NUMBER_OF_PAGES
  · rw [if_pos c, destroys_append, destroys_pageSwitch]
    by_cases hp : s.pageNumber = PAGE_NOISE
    · rw [if_pos hp, if_pos ⟨c.1, hp⟩]; rfl
    · rw [if_neg hp, if_neg (fun hc => hp hc.2)]; rfl
  · rw [if_neg c]
    split_ifs <;> rfl

theorem destroys_loopBody (h : NoiseLevelH) (s : TFTState) (i : LoopInput)
    (hold : s.oldPageNumber = s.pageNumber) :
    destroys (loopBody h s i).2 =
      if s.pageNumber = PAGE_NOISE ∧ (loopBody h s i).1.pageNumber ≠ s.pageNumber then 1
      else 0 := by
  by_cases hb : i.capsenseBusy = true
  · rw [loopBody_pageNumber, if_pos hb, loopBody_busy h s i hb, destroys_gaugeBlock]
    simp
  · have hb' : i.capsenseBusy = false := by simpa using hb
    rw [loopBody_pageNumber, if_neg hb, loopBody_scan h s i hb', destroys_append,
      destroys_gaugeBlock, destroys_scanCycle h (scanState s i) _ _ hold,
      scanCycle_pageNumber_eq, scanState_pageNumber, add_zero]
    have he := touchEvent_range s i
    by_cases hp : s.pageNumber = PAGE_NOISE
    · have hiff : touchEvent s i ≠ 0 ↔
          (if s.pageNumber + touchEvent s i ≥ NUMBER_OF_PAGES then 0
            else if s.pageNumber + touchEvent s i < 0 then NUMBER_OF_PAGES - 1
            else s.pageNumber + touchEvent s i) ≠ s.pageNumber := by
        unfold NUMBER_OF_PAGES PAGE_NOISE at *
        split_ifs <;> omega
      by_cases h0 : touchEvent s i ≠ 0
      · rw [if_pos ⟨h0, hp⟩, if_pos ⟨hp, hiff.1 h0⟩]
      · rw [if_neg (fun hc => h0 hc.1), if_neg (fun hc => h0 (hiff.2 hc.2))]
    · rw [if_neg (fun hc => hp hc.2), if_neg (fun hc => hp hc.1)]

theorem creates_scanCycle (h : NoiseLevelH) (s : TFTState) (e fb : Int)
    (hold : s.oldPageNumber = s.pageNumber) :
    creates (scanCycle h s e fb).2 =
      if e ≠ 0 ∧ s.pageNumber + e = PAGE_NOISE ∧ h.RECOMMENDED_MEMORY ≤ fb then 1 else 0 := by
  rw [scanCycle_calls_eq h s e fb hold]
  by_cases c : e ≠ 0 ∧ 0 ≤ s.pageNumber + e ∧ s.pageNumber + e < NUMBER_OF_PAGES
  · rw [if_pos c, creates_append, creates_pageSwitch]
    have z : creates (if s.pageNumber = PAGE_NOISE then [Call.GUI_MEMDEV_DeleteAuto] else []) = 0 := by
      split_ifs <;> rfl
    rw [z, zero_add]
    by_cases d : s.pageNumber + e = PAGE_NOISE ∧ h.RECOMMENDED_MEMORY ≤ fb
    · rw [if_pos d, if_pos ⟨c.1, d⟩]
    · rw [if_neg d, if_neg (fun hc => d hc.2)]
  · rw [if_neg c]
    have z : creates (if e ≠ 0 ∧ s.pageNumber = PAGE_NOISE then [Call.GUI_MEMDEV_DeleteAuto]
        else []) = 0 := by
      split_ifs <;> rfl
    rw [z, if_neg]
    intro hc
    apply c
    refine ⟨hc.1, ?_, ?_⟩
    · rw [hc.2.1]; decide
    · rw [hc.2.1]; decide

theorem creates_loopBody (h : NoiseLevelH) (s : TFTState) (i : LoopInput)
    (hold : s.oldPageNumber = s.pageNumber) :
    creates (loopBody h s i).2 =
      (if s.pageNumber ≠ PAGE_NOISE ∧ (loopBody h s i).1.pageNumber = PAGE_NOISE ∧
          h.RECOMMENDED_MEMORY ≤ i.freeBytes then 1 else 0) +
      (if (loopBody h s i).1.pageNumber = PAGE_NOISE then 1 else 0) := by
  by_cases hb : i.capsenseBusy = true
  · have hn : ¬ (s.pageNumber ≠ PAGE_NOISE ∧ s.pageNumber = PAGE_NOISE ∧
        h.RECOMMENDED_MEMORY ≤ i.freeBytes) := fun hc => hc.1 hc.2.1
    rw [loopBody_pageNumber, if_pos hb, loopBody_busy h s i hb, creates_gaugeBlock,
      if_neg hn, zero_add]
  · have hb' : i.capsenseBusy = false := by simpa using hb
    rw [loopBody_pageNumber, if_neg hb, loopBody_scan h s i hb', creates_append,
      creates_gaugeBlock, creates_scanCycle h (scanState s i) _ _ hold,
      scanCycle_pageNumber_eq, scanState_pageNumber]
    congr 1
    have hiff : (touchEvent s i ≠ 0 ∧ s.pageNumber + touchEvent s i = PAGE_NOISE ∧
          h.RECOMMENDED_MEMORY ≤ i.freeBytes) ↔
        (s.pageNumber ≠ PAGE_NOISE ∧
          (if s.pageNumber + touchEvent s i ≥ NUMBER_OF_PAGES then 0
            else if s.pageNumber + touchEvent s i < 0 then NUMBER_OF_PAGES - 1
            else s.pageNumber + touchEvent s i) = PAGE_NOISE ∧
          h.RECOMMENDED_MEMORY ≤ i.freeBytes) := by
      unfold NUMBER_OF_PAGES PAGE_NOISE at *
      split_ifs <;> constructor <;> rintro ⟨a, b, c⟩ <;> refine ⟨?_, ?_, c⟩ <;> omega
    by_cases d : touchEvent s i ≠ 0 ∧ s.pageNumber + touchEvent s i = PAGE_NOISE ∧
        h.RECOMMENDED_MEMORY ≤ i.freeBytes
    · rw [if_pos d, if_pos (hiff.1 d)]
    · rw [if_neg d, if_neg (fun hc => d (hiff.2 hc))]

theorem loopBody_calls_leaving (h : NoiseLevelH) (s : TFTState) (i : LoopInput)
    (hold : s.oldPageNumber = s.pageNumber) (hp : s.pageNumber = PAGE_NOISE)
    (hne : (loopBody h s i).1.pageNumber ≠ s.pageNumber) :
    (loopBody h s i).2 =
      Call.GUI_MEMDEV_DeleteAuto ::
        pageSwitch h (loopBody h s i).1.pageNumber s.drawVolume i.freeBytes := by
  have hb : ¬ i.capsenseBusy = true := by
    intro hb
    rw [loopBody_pageNumber, if_pos hb] at hne
    exact hne rfl
  have hb' : i.capsenseBusy = false := by simpa using hb
  have hpage := loopBody_pageNumber h s i
  rw [if_neg hb, scanCycle_pageNumber_eq, scanState_pageNumber] at hpage
  have he := touchEvent_range s i
  have hnew : (loopBody h s i).1.pageNumber = s.pageNumber + touchEvent s i := by
    rw [hpage]
    unfold NUMBER_OF_PAGES PAGE_NOISE at *
    split_ifs <;> omega
  have he0 : touchEvent s i ≠ 0 := by
    intro h0
    rw [hnew, h0, add_zero] at hne
    exact hne rfl
  have hcond : touchEvent s i ≠ 0 ∧ 0 ≤ (scanState s i).pageNumber + touchEvent s i ∧
      (scanState s i).pageNumber + touchEvent s i < NUMBER_OF_PAGES := by
    rw [scanState_pageNumber]
    unfold NUMBER_OF_PAGES PAGE_NOISE at *
    omega
  have hgauge : (gaugeBlock h (scanCycle h (scanState s i) (touchEvent s i) i.freeBytes).1
      i.audio_frame).2 = [] := by
    rw [gaugeBlock_calls, if_neg]
    rw [scanCycle_pageNumber_eq, scanState_pageNumber, ← hpage, hnew]
    rw [hnew] at hne
    rw [← hp]
    exact hne
  rw [hnew]
  rw [loopBody_scan h s i hb', hgauge, List.append_nil,
    scanCycle_calls_eq h (scanState s i) _ _ hold, if_pos hcond, scanState_pageNumber,
    scanState_drawVolume, if_pos hp]
  rfl

/-- C8: after any run of the main loop, an iteration that starts on the gauge
page and changes the page index calls `GUI_MEMDEV_DeleteAuto` exactly once, as
its first call, followed only by the calls of the page switch for the new page;
every other iteration does not call `GUI_MEMDEV_DeleteAuto`. -/
theorem deleteAuto_on_leaving_gauge (h : NoiseLevelH) (ins : List LoopInput) (i : LoopInput) :
    ((mainTFT h ins).1.pageNumber = PAGE_NOISE ∧
        (loopBody h (mainTFT h ins).1 i).1.pageNumber ≠ (mainTFT h ins).1.pageNumber →
      (loopBody h (mainTFT h ins).1 i).2 =
        Call.GUI_MEMDEV_DeleteAuto ::
          pageSwitch h (loopBody h (mainTFT h ins).1 i).1.pageNumber
            (mainTFT h ins).1.drawVolume i.freeBytes ∧
      Call.GUI_MEMDEV_DeleteAuto ∉
        pageSwitch h (loopBody h (mainTFT h ins).1 i).1.pageNumber
          (mainTFT h ins).1.drawVolume i.freeBytes ∧
      destroys (loopBody h (mainTFT h ins).1 i).2 = 1) ∧
    (¬ ((mainTFT h ins).1.pageNumber = PAGE_NOISE ∧
        (loopBody h (mainTFT h ins).1 i).1.pageNumber ≠ (mainTFT h ins).1.pageNumber) →
      Call.GUI_MEMDEV_DeleteAuto ∉ (loopBody h (mainTFT h ins).1 i).2) := by
  have hold := (mainTFT_invariant h ins).1
  have hd := destroys_loopBody h (mainTFT h ins).1 i hold
  constructor
  · intro hc
    refine ⟨loopBody_calls_leaving h _ i hold hc.1 hc.2, ?_, ?_⟩
    · exact List.count_eq_zero.1 (destroys_pageSwitch h _ _ _)
    · rw [hd, if_pos hc]
  · intro hc
    rw [if_neg hc] at hd
    exact List.count_eq_zero.1 hd

/-- Instance of `deleteAuto_on_leaving_gauge`: after the iteration that enters
the gauge page, a touch of button 0 leaves it for the logo page; that iteration
calls `GUI_MEMDEV_DeleteAuto` once, first, and then `ShowBitmap`. The first
iteration of a run, which starts on the logo page, does not call
`GUI_MEMDEV_DeleteAuto`. -/
theorem deleteAuto_on_leaving_gauge_witness :
    ((mainTFT exampleH [enterGauge]).1.pageNumber = PAGE_NOISE ∧
      (loopBody exampleH (mainTFT exampleH [enterGauge]).1 leaveGauge).1.pageNumber ≠
        (mainTFT exampleH [enterGauge]).1.pageNumber) ∧
    (loopBody exampleH (mainTFT exampleH [enterGauge]).1 leaveGauge).2 =
      [Call.GUI_MEMDEV_DeleteAuto, Call.ShowBitmap] ∧
    destroys (loopBody exampleH (mainTFT exampleH [enterGauge]).1 leaveGauge).2 = 1 ∧
    Call.GUI_MEMDEV_DeleteAuto ∉
      (loopBody exampleH (mainTFT exampleH []).1 enterGauge).2 :=
  ⟨by decide,
   ((deleteAuto_on_leaving_gauge exampleH [enterGauge] leaveGauge).1 (by decide)).1,
   ((deleteAuto_on_leaving_gauge exampleH [enterGauge] leaveGauge).1 (by decide)).2.2,
   (deleteAuto_on_leaving_gauge exampleH [] enterGauge).2
     (fun hc => absurd hc.1 (by decide))⟩

theorem destroys_take_le (t : List Call) (n : Nat) : destroys (t.take n) ≤ destroys t :=
  (List.take_sublist n t).count_le _

theorem mainTFT_live (h : NoiseLevelH) (ins : List LoopInput) :
    (∀ n : Nat, destroys ((mainTFT h ins).2.take n) ≤ creates ((mainTFT h ins).2.take n)) ∧
    ((mainTFT h ins).1.pageNumber = PAGE_NOISE →
      destroys (mainTFT h ins).2 < creates (mainTFT h ins).2) := by
  induction ins using List.reverseRecOn with
  | nil =>
    rw [mainTFT_nil]
    constructor
    · intro n
      simp [destroys, creates]
    · intro hc
      exact absurd hc (by decide)
  | append_singleton ins i ih =>
    obtain ⟨ihp, ihl⟩ := ih
    have hold := (mainTFT_invariant h ins).1
    have hd := destroys_loopBody h (mainTFT h ins).1 i hold
    have hcr := creates_loopBody h (mainTFT h ins).1 i hold
    have hall : destroys (mainTFT h ins).2 ≤ creates (mainTFT h ins).2 := by
      have := ihp (mainTFT h ins).2.length
      rwa [List.take_length] at this
    rw [mainTFT_snoc]
    constructor
    · intro n
      show destroys (((mainTFT h ins).2 ++ (loopBody h (mainTFT h ins).1 i).2).take n) ≤
        creates (((mainTFT h ins).2 ++ (loopBody h (mainTFT h ins).1 i).2).take n)
      rw [List.take_append_eq_append_take, destroys_append, creates_append]
      by_cases hn : n ≤ (mainTFT h ins).2.length
      · have hz : n - (mainTFT h ins).2.length = 0 := by omega
        rw [hz, List.take_zero]
        have := ihp n
        simp only [destroys, creates, List.count_nil] at *
        omega
      · rw [List.take_of_length_le (by omega)]
        have hle := destroys_take_le (loopBody h (mainTFT h ins).1 i).2
          (n - (mainTFT h ins).2.length)
        rw [hd] at hle
        by_cases hp : (mainTFT h ins).1.pageNumber = PAGE_NOISE
        · have := ihl hp
          split_ifs at hle <;> omega
        · rw [if_neg (fun hc => hp hc.1)] at hle
          omega
    · intro hnew
      show destroys ((mainTFT h ins).2 ++ (loopBody h (mainTFT h ins).1 i).2) <
        creates ((mainTFT h ins).2 ++ (loopBody h (mainTFT h ins).1 i).2)
      have hnew' : (loopBody h (mainTFT h ins).1 i).1.pageNumber = PAGE_NOISE := hnew
      rw [destroys_append, creates_append, hd, hcr, if_pos hnew']
      have hz : ¬ ((mainTFT h ins).1.pageNumber = PAGE_NOISE ∧
          (loopBody h (mainTFT h ins).1 i).1.pageNumber ≠ (mainTFT h ins).1.pageNumber) := by
        intro hc
        exact hc.2 (by rw [hnew', hc.1])
      rw [if_neg hz]
      omega

/-- C4, as the code has it: in a run where the display library never has less
than `RECOMMENDED_MEMORY` free bytes, an iteration calls `GUI_MEMDEV_DeleteAuto`
once when it leaves the gauge page and not at all otherwise; it calls
`GUI_MEMDEV_CreateAuto` once per `DrawScale` call, that is twice when it enters
the gauge page, once when it stays on it and not at all when it ends on another
page; and at every point of the run the number of `GUI_MEMDEV_DeleteAuto` calls
is at most the number of `GUI_MEMDEV_CreateAuto` calls. -/
theorem autoDevice_life_cycle (h : NoiseLevelH) (ins : List LoopInput) (i : LoopInput)
    (hmem : ∀ j ∈ ins ++ [i], h.RECOMMENDED_MEMORY ≤ j.freeBytes) :
    destroys (loopBody h (mainTFT h ins).1 i).2 =
      (if (mainTFT h ins).1.pageNumber = PAGE_NOISE ∧
          (loopBody h (mainTFT h ins).1 i).1.pageNumber ≠ PAGE_NOISE then 1 else 0) ∧
    creates (loopBody h (mainTFT h ins).1 i).2 =
      (if (loopBody h (mainTFT h ins).1 i).1.pageNumber = PAGE_NOISE then
        (if (mainTFT h ins).1.pageNumber = PAGE_NOISE then 1 else 2)
      else 0) ∧
    (∀ n : Nat, destroys ((mainTFT h (ins ++ [i])).2.take n) ≤
      creates ((mainTFT h (ins ++ [i])).2.take n)) := by
  have hold := (mainTFT_invariant h ins).1
  have hi : h.RECOMMENDED_MEMORY ≤ i.freeBytes := hmem i (by simp)
  refine ⟨?_, ?_, (mainTFT_live h (ins ++ [i])).1⟩
  · rw [destroys_loopBody h _ i hold]
    by_cases hp : (mainTFT h ins).1.pageNumber = PAGE_NOISE
    · rw [hp]
    · rw [if_neg (fun hc => hp hc.1), if_neg (fun hc => hp hc.1)]
  · rw [creates_loopBody h _ i hold]
    by_cases hq : (loopBody h (mainTFT h ins).1 i).1.pageNumber = PAGE_NOISE
    · rw [if_pos hq, if_pos hq]
      by_cases hp : (mainTFT h ins).1.pageNumber = PAGE_NOISE
      · rw [if_pos hp, if_neg (fun hc => hc.1 hp)]
      · rw [if_neg hp, if_pos ⟨hp, hq, hi⟩]
    · rw [if_neg hq, if_neg hq, if_neg (fun hc => hq hc.2.1)]

/-- Instance of `autoDevice_life_cycle`: the iteration that enters the gauge
page with enough memory creates the auto device twice. -/
theorem autoDevice_life_cycle_witness :
    (∀ j ∈ [] ++ [enterGauge], exampleH.RECOMMENDED_MEMORY ≤ j.freeBytes) ∧
    creates (loopBody exampleH (mainTFT exampleH []).1 enterGauge).2 = 2 :=
  ⟨by simp [enterGauge, exampleH],
   (autoDevice_life_cycle exampleH [] enterGauge (by simp [enterGauge, exampleH])).2.1.trans
     (by decide)⟩

/-- Counterexample to C4 as stated: after the single iteration that enters the
gauge page with enough memory the auto device has been created twice and never
deleted, so creates minus destroys is 2, neither 0 nor 1. -/
theorem autoDevice_created_twice :
    creates (mainTFT exampleH [enterGauge]).2 = 2 ∧
    destroys (mainTFT exampleH [enterGauge]).2 = 0 ∧
    ¬ ((creates (mainTFT exampleH [enterGauge]).2 : Int) -
          destroys (mainTFT exampleH [enterGauge]).2 = 0 ∨
        (creates (mainTFT exampleH [enterGauge]).2 : Int) -
          destroys (mainTFT exampleH [enterGauge]).2 = 1) := by
  decide

/-- C5, what the code does at the failing input: entering the gauge page when
the display library has no free bytes reports the error and skips
`NoiseLevelInitGUI`, but the page index becomes `PAGE_NOISE` and the gauge block
of the same iteration, and of the next one, still calls `DrawScale`: the auto
device is created and the needle is rendered. -/
theorem gauge_drawn_despite_low_memory :
    (enterGaugeLowMemory.freeBytes < exampleH.RECOMMENDED_MEMORY) ∧
    (mainTFT exampleH [enterGaugeLowMemory]).1.pageNumber = PAGE_NOISE ∧
    (mainTFT exampleH [enterGaugeLowMemory]).2 =
      Call.GUI_ErrorOut :: (DrawScale exampleH 3200 ++ [Call.cyhal_pdm_pcm_read_async]) ∧
    Call.NoiseLevelInitGUI ∉ (mainTFT exampleH [enterGaugeLowMemory, stayOnPage]).2 ∧
    creates (mainTFT exampleH [enterGaugeLowMemory]).2 = 1 ∧
    creates (mainTFT exampleH [enterGaugeLowMemory, stayOnPage]).2 = 2 := by
  refine ⟨by decide, by decide, ?_, by decide, by decide, by decide⟩
  rfl

/-! ## The loudness of a frame -/

theorem sumAbs_append (a b : List Int) : sumAbs (a ++ b) = sumAbs a + sumAbs b := by
  simp [sumAbs]

theorem sumAbs_le (l : List Int) (hb : ∀ x ∈ l, x.natAbs ≤ 32768) :
    sumAbs l ≤ l.length * 32768 := by
  induction l with
  | nil => simp [sumAbs]
  | cons x xs ih =>
    have hx := hb x (List.mem_cons_self x xs)
    have hxs := ih (fun y hy => hb y (List.mem_cons_of_mem x hy))
    simp only [sumAbs, List.map_cons, List.sum_cons, List.length_cons] at *
    omega

theorem frameVolume_succ (k : Nat) (l : List Int) :
    frameVolume (k + 1) l = (frameVolume k l + (l.getD k 0).natAbs) % 2 ^ 32 := by
  simp [frameVolume, List.range_succ, List.foldl_append]

theorem frameVolume_take (l : List Int) (hb : ∀ x ∈ l, x.natAbs ≤ 32768)
    (hsz : l.length * 32768 < 2 ^ 32) (k : Nat) (hk : k ≤ l.length) :
    frameVolume k l = sumAbs (l.take k) := by
  induction k with
  | zero => simp [frameVolume, sumAbs]
  | succ k ih =>
    have hlt : k < l.length := hk
    have hprev := ih (by omega)
    have htake : l.take (k + 1) = l.take k ++ [l.getD k 0] := by
      rw [List.take_succ, List.getD_eq_getElem?_getD, List.getElem?_eq_getElem hlt]
      rfl
    have hbound : sumAbs (l.take (k + 1)) ≤ (l.take (k + 1)).length * 32768 :=
      sumAbs_le _ (fun x hx => hb x (List.mem_of_mem_take hx))
    have hlen : (l.take (k + 1)).length = k + 1 := by
      rw [List.length_take]; omega
    rw [hlen] at hbound
    rw [frameVolume_succ, hprev, htake, sumAbs_append]
    rw [htake, sumAbs_append] at hbound
    have hs : sumAbs [l.getD k 0] = (l.getD k 0).natAbs := by simp [sumAbs]
    rw [hs] at hbound ⊢
    apply Nat.mod_eq_of_lt
    omega

theorem frameVolume_eq_sumAbs (FRAME_SIZE : Nat) (frame : List Int)
    (hv : ValidFrame FRAME_SIZE frame) (hsz : FRAME_SIZE * 32768 < 2 ^ 32) :
    frameVolume FRAME_SIZE frame = sumAbs frame := by
  obtain ⟨hlen, hrange⟩ := hv
  have hb : ∀ x ∈ frame, x.natAbs ≤ 32768 := by
    intro x hx
    have := hrange x hx
    omega
  rw [← hlen] at hsz ⊢
  rw [frameVolume_take frame hb hsz frame.length le_rfl, List.take_length]

theorem gaugeBlock_drawVolume (h : NoiseLevelH) (s : TFTState) (frame : List Int)
    (hp : s.pageNumber = PAGE_NOISE) (hf : s.pdm_pcm_flag = true) :
    (gaugeBlock h s frame).1.drawVolume =
      min (((frameVolume h.FRAME_SIZE frame / 10 : Nat) : Int)) h.ABSOLUTE_MAX_NOISE := by
  unfold gaugeBlock
  rw [if_pos hp, if_pos hf]
  show (if ((frameVolume h.FRAME_SIZE frame / 10 : Nat) : Int) > h.ABSOLUTE_MAX_NOISE then
      h.ABSOLUTE_MAX_NOISE else ((frameVolume h.FRAME_SIZE frame / 10 : Nat) : Int)) = _
  split_ifs with hc
  · rw [min_eq_right (le_of_lt hc)]
  · rw [min_eq_left (not_lt.1 hc)]

theorem gaugeBlock_drawVolume_sum (h : NoiseLevelH) (s : TFTState) (frame : List Int)
    (hv : ValidFrame h.FRAME_SIZE frame) (hsz : h.FRAME_SIZE * 32768 < 2 ^ 32)
    (hp : s.pageNumber = PAGE_NOISE) (hf : s.pdm_pcm_flag = true) :
    (gaugeBlock h s frame).1.drawVolume =
      min ((sumAbs frame : Int) / 10) h.ABSOLUTE_MAX_NOISE := by
  rw [gaugeBlock_drawVolume h s frame hp hf, frameVolume_eq_sumAbs _ frame hv hsz]
  norm_cast

/-- C1: for a frame of `FRAME_SIZE` samples of type `int16_t`, with
`FRAME_SIZE * 32768 < 2 ^ 32`, the gauge block run on the gauge page with the
microphone flag set leaves in `drawVolume` the value
`min (S / 10) ABSOLUTE_MAX_NOISE`, where `S` is the sum of the absolute values
of the samples; when `ABSOLUTE_MAX_NOISE ≥ 0` it lies in
`[0, ABSOLUTE_MAX_NOISE]`; it is non-decreasing in `S`; and a frame with
`S = 32000` gives 3200 when `ABSOLUTE_MAX_NOISE ≥ 3200`. -/
theorem gaugeBlock_loudness (h : NoiseLevelH) (s : TFTState) (frame : List Int)
    (hv : ValidFrame h.FRAME_SIZE frame) (hsz : h.FRAME_SIZE * 32768 < 2 ^ 32)
    (hp : s.pageNumber = PAGE_NOISE) (hf : s.pdm_pcm_flag = true) :
    (gaugeBlock h s frame).1.drawVolume =
      min ((sumAbs frame : Int) / 10) h.ABSOLUTE_MAX_NOISE ∧
    (0 ≤ h.ABSOLUTE_MAX_NOISE →
      0 ≤ (gaugeBlock h s frame).1.drawVolume ∧
      (gaugeBlock h s frame).1.drawVolume ≤ h.ABSOLUTE_MAX_NOISE) ∧
    (∀ (s' : TFTState) (frame' : List Int), ValidFrame h.FRAME_SIZE frame' →
      s'.pageNumber = PAGE_NOISE → s'.pdm_pcm_flag = true →
      sumAbs frame ≤ sumAbs frame' →
      (gaugeBlock h s frame).1.drawVolume ≤ (gaugeBlock h s' frame').1.drawVolume) ∧
    (sumAbs frame = 32000 → 3200 ≤ h.ABSOLUTE_MAX_NOISE →
      (gaugeBlock h s frame).1.drawVolume = 3200) := by
  have key := gaugeBlock_drawVolume_sum h s frame hv hsz hp hf
  refine ⟨key, ?_, ?_, ?_⟩
  · intro hmax
    rw [key]
    have hnn : (0 : Int) ≤ (sumAbs frame : Int) / 10 :=
      Int.ediv_nonneg (Int.ofNat_nonneg _) (by decide)
    exact ⟨le_min hnn hmax, min_le_right _ _⟩
  · intro s' frame' hv' hp' hf' hle
    rw [key, gaugeBlock_drawVolume_sum h s' frame' hv' hsz hp' hf']
    have hdiv : (sumAbs frame : Int) / 10 ≤ (sumAbs frame' : Int) / 10 :=
      Int.ediv_le_ediv (by decide) (by exact_mod_cast hle)
    exact min_le_min hdiv le_rfl
  · intro hsum hmax
    rw [key, hsum]
    exact min_eq_left hmax

/-- Instance of `gaugeBlock_loudness`: ten samples of 3200 give the loudness
3200. -/
theorem gaugeBlock_loudness_witness :
    ValidFrame exampleH.FRAME_SIZE (List.replicate 10 3200) ∧
    (gaugeBlock exampleH { initialState with pageNumber := PAGE_NOISE }
      (List.replicate 10 3200)).1.drawVolume = 3200 :=
  ⟨⟨rfl, by decide⟩,
   (gaugeBlock_loudness exampleH { initialState with pageNumber := PAGE_NOISE }
      (List.replicate 10 3200) ⟨rfl, by decide⟩ (by decide) rfl rfl).2.2.2
      (by decide) (by decide)⟩

end SuperSmartHome
